import Mathlib

/-!
Verification development for the mortality-forecasting engine in
`morai/forecast/models.py` (classes `GLM`, `LeeCarter`, `CBD`).

The Python code is shallowly embedded: machine floats produced by the
numpy/pandas pipeline are modelled by `PyFloat` (finite rationals plus the
two infinities and NaN) where the infinite/NaN cases matter, and by exact
rationals where the code only performs field arithmetic on finite values;
transcendental maps (`np.exp`) are kept as an explicit function parameter so
that the algebra downstream of them is verified for every choice of that
function.  DataFrames are modelled twice, at the precision each claim needs:
typed row lists for the numeric pipeline, and an untyped column-labelled
`Frame` for the column/merge/error semantics.
-/

namespace Morai

/-- A numpy/pandas float value: a finite rational, `+inf`, `-inf`, or NaN. -/
inductive PyFloat where
  | fin (q : ℚ)
  | pinf
  | ninf
  | nan
deriving DecidableEq, Repr

/-- numpy true division `a / b` of finite floats: finite quotient when
`b ≠ 0`; `0 / 0` is NaN and `a / 0` for `a ≠ 0` is a signed infinity. -/
def pyDiv (a b : ℚ) : PyFloat :=
  if b = 0 then
    if a = 0 then .nan else if 0 < a then .pinf else .ninf
  else .fin (a / b)

/-- One raw experience record, holding the four configured columns used by
`LeeCarter.structure_df` / `CBD.structure_df` (`age_col`, `year_col`,
`actual_col`, `expose_col`).  The column-presence check on arbitrary frames
is modelled separately on the untyped `Frame` below. -/
structure ExpRow where
  age : ℤ
  year : ℤ
  actual : ℚ
  exposure : ℚ
deriving DecidableEq, Repr

/-- Lexicographic order on (age, year) group keys, the order in which
`df.groupby([age_col, year_col])` (sort=True default) emits groups. -/
def keyLe (k1 k2 : ℤ × ℤ) : Bool :=
  decide (k1.1 < k2.1 ∨ (k1.1 = k2.1 ∧ k1.2 ≤ k2.2))

/-- Insertion step of the key sort. -/
def insertKey (k : ℤ × ℤ) : List (ℤ × ℤ) → List (ℤ × ℤ)
  | [] => [k]
  | k2 :: ks => if keyLe k k2 then k :: k2 :: ks else k2 :: insertKey k ks

/-- Insertion sort of group keys. -/
def sortKeys (ks : List (ℤ × ℤ)) : List (ℤ × ℤ) :=
  ks.foldr insertKey []

/-- The distinct (age, year) group keys of a dataset, in groupby order. -/
def groupKeys (df : List ExpRow) : List (ℤ × ℤ) :=
  sortKeys ((df.map fun r => (r.age, r.year)).dedup)

/-- The aggregated row of one (age, year) group:
`groupby([age_col, year_col])[[actual_col, expose_col]].sum()` sums the
actual and exposure columns within the group (duplicates are additive). -/
def aggRow (df : List ExpRow) (k : ℤ × ℤ) : ExpRow where
  age := k.1
  year := k.2
  actual := ((df.filter fun r => r.age == k.1 && r.year == k.2).map ExpRow.actual).sum
  exposure := ((df.filter fun r => r.age == k.1 && r.year == k.2).map ExpRow.exposure).sum

/-- The grouped-and-summed dataset produced inside `structure_df`. -/
def aggregate (df : List ExpRow) : List ExpRow :=
  (groupKeys df).map (aggRow df)

/-- The pre-clip rate `np.where(actual == 0, 0, actual / exposure)`:
0 whenever actual is 0 (independent of exposure), else the float quotient. -/
def qx_raw_pre (r : ExpRow) : PyFloat :=
  if r.actual = 0 then .fin 0 else pyDiv r.actual r.exposure

/-- The float comparison `qx_raw > 1` used to count capped rates
(`len(lc_df[lc_df["qx_raw"] > 1])`); NaN compares false. -/
def pyGtOne : PyFloat → Bool
  | .fin q => decide (1 < q)
  | .pinf => true
  | .ninf => false
  | .nan => false

/-- Models `Series.clip(upper=1)`: caps finite values and `+inf` at 1, leaves
`-inf` and NaN untouched, and imposes no lower bound. -/
def clipUpper1 : PyFloat → PyFloat
  | .fin q => .fin (min q 1)
  | .pinf => .fin 1
  | .ninf => .ninf
  | .nan => .nan

/-- One row of the structured surface returned by `structure_df`. -/
structure SurfRow where
  age : ℤ
  year : ℤ
  actual : ℚ
  exposure : ℚ
  qx_raw : PyFloat
deriving DecidableEq, Repr

/-- Models `LeeCarter.structure_df` / `CBD.structure_df` after the column check:
group by (age, year), sum actual and exposure, compute `qx_raw`, clip at 1. -/
def structure_df (df : List ExpRow) : List SurfRow :=
  (aggregate df).map fun r =>
    { age := r.age, year := r.year, actual := r.actual, exposure := r.exposure,
      qx_raw := clipUpper1 (qx_raw_pre r) }

/-- The count the code logs: number of aggregated rows whose pre-clip
`qx_raw` exceeds 1. -/
def cappedCount (df : List ExpRow) : ℕ :=
  ((aggregate df).filter fun r => pyGtOne (qx_raw_pre r)).length

/-- Membership of a computed rate in the closed interval [0, 1]; infinite
and NaN rates are not in the interval. -/
def inUnitInterval : PyFloat → Bool
  | .fin q => decide (0 ≤ q ∧ q ≤ 1)
  | _ => false

/-- Spec-side reading of "the actual/exposure ratio exceeds 1" for an
aggregated row, with `x/0 = +inf` for `x > 0`. -/
def ratioExceedsOne (r : ExpRow) : Prop :=
  (r.exposure ≠ 0 ∧ 1 < r.actual / r.exposure) ∨ (r.exposure = 0 ∧ 0 < r.actual)

instance (r : ExpRow) : Decidable (ratioExceedsOne r) := by
  unfold ratioExceedsOne; infer_instance

theorem aggregate_nonneg (df : List ExpRow)
    (h : ∀ r ∈ df, 0 ≤ r.actual ∧ 0 ≤ r.exposure) :
    ∀ r ∈ aggregate df, 0 ≤ r.actual ∧ 0 ≤ r.exposure := by
  intro r hr
  rw [aggregate, List.mem_map] at hr
  obtain ⟨k, _, rfl⟩ := hr
  constructor
  · refine List.sum_nonneg ?_
    intro x hx
    rw [List.mem_map] at hx
    obtain ⟨r0, hr0, rfl⟩ := hx
    exact (h r0 (List.mem_of_mem_filter hr0)).1
  · refine List.sum_nonneg ?_
    intro x hx
    rw [List.mem_map] at hx
    obtain ⟨r0, hr0, rfl⟩ := hx
    exact (h r0 (List.mem_of_mem_filter hr0)).2

theorem pyGtOne_eq_ratioExceedsOne (r : ExpRow) :
    pyGtOne (qx_raw_pre r) = decide (ratioExceedsOne r) := by
  by_cases ha : r.actual = 0
  · have h0 : ¬ ratioExceedsOne r := by
      rintro (⟨he, hlt⟩ | ⟨he, hlt⟩) <;> rw [ha] at hlt <;> norm_num at hlt
    simp [qx_raw_pre, ha, pyGtOne, h0]
  · by_cases he : r.exposure = 0
    · by_cases hp : 0 < r.actual
      · have h1 : ratioExceedsOne r := Or.inr ⟨he, hp⟩
        simp [qx_raw_pre, ha, pyDiv, he, hp, pyGtOne, h1]
      · have h0 : ¬ ratioExceedsOne r := by
          rintro (⟨he2, _⟩ | ⟨_, hlt⟩)
          · exact he2 he
          · exact hp hlt
        simp [qx_raw_pre, ha, pyDiv, he, hp, pyGtOne, h0]
    · by_cases hq : 1 < r.actual / r.exposure
      · have h1 : ratioExceedsOne r := Or.inl ⟨he, hq⟩
        simp [qx_raw_pre, ha, pyDiv, he, pyGtOne, hq, h1]
      · have h0 : ¬ ratioExceedsOne r := by
          rintro (⟨_, hlt⟩ | ⟨he2, _⟩)
          · exact hq hlt
          · exact he he2
        simp [qx_raw_pre, ha, pyDiv, he, pyGtOne, hq, h0]

/-- A dataset whose single aggregated row has a negative actual amount:
its ratio is -1/2, and `clip(upper=1)` imposes no lower bound. -/
def c3df : List ExpRow := [⟨50, 2000, -1, 2⟩]

/-- Claim C3, as stated over every input dataset, is false: on a dataset
with a negative actual amount the structured surface holds `qx_raw = -1/2`,
outside the closed interval [0, 1] (the clip caps only at 1). -/
theorem c3_unit_interval_counterexample :
    ¬ (∀ r ∈ structure_df c3df, inUnitInterval r.qx_raw = true) := by
  norm_num [c3df, structure_df, aggregate, groupKeys, sortKeys, insertKey, aggRow,
    qx_raw_pre, pyDiv, clipUpper1, inUnitInterval, min_def]

/-- Claim C3 (amended with nonnegative actual and exposure amounts): every
`qx_raw` of the structured surface lies in [0, 1]; every aggregated row
whose actual/exposure ratio exceeds 1 gets `qx_raw` exactly 1; the logged
cap count equals the number of such rows; and no row is dropped. -/
theorem c3_structure_clips_rates (df : List ExpRow)
    (h : ∀ r ∈ df, 0 ≤ r.actual ∧ 0 ≤ r.exposure) :
    (∀ r ∈ structure_df df, inUnitInterval r.qx_raw = true) ∧
    (∀ r ∈ aggregate df, ratioExceedsOne r →
      clipUpper1 (qx_raw_pre r) = PyFloat.fin 1) ∧
    cappedCount df
      = ((aggregate df).filter fun r => decide (ratioExceedsOne r)).length ∧
    (structure_df df).length = (aggregate df).length := by
  refine ⟨?_, ?_, ?_, ?_⟩
  · intro r hr
    rw [structure_df, List.mem_map] at hr
    obtain ⟨r0, hr0, rfl⟩ := hr
    obtain ⟨hna, hne⟩ := aggregate_nonneg df h r0 hr0
    by_cases ha : r0.actual = 0
    · norm_num [qx_raw_pre, ha, clipUpper1, inUnitInterval, min_def]
    · by_cases he : r0.exposure = 0
      · have hp : 0 < r0.actual := lt_of_le_of_ne hna (Ne.symm ha)
        norm_num [qx_raw_pre, ha, pyDiv, he, hp, clipUpper1, inUnitInterval]
      · have hq : 0 ≤ r0.actual / r0.exposure := div_nonneg hna hne
        have h1 : min (r0.actual / r0.exposure) 1 ≤ 1 := min_le_right _ _
        have h0 : (0 : ℚ) ≤ min (r0.actual / r0.exposure) 1 := le_min hq (by norm_num)
        norm_num [qx_raw_pre, ha, pyDiv, he, clipUpper1, inUnitInterval, h0, h1]
  · intro r hr hrat
    obtain ⟨hna, hne⟩ := aggregate_nonneg df h r hr
    rcases hrat with ⟨he, hq⟩ | ⟨he, hp⟩
    · have hepos : 0 < r.exposure := lt_of_le_of_ne hne (Ne.symm he)
      have hq0 : (0 : ℚ) < r.actual / r.exposure := lt_trans one_pos hq
      have ha : r.actual ≠ 0 := by
        intro h0
        rw [h0, zero_div] at hq0
        exact lt_irrefl 0 hq0
      simp [qx_raw_pre, ha, pyDiv, he, clipUpper1, min_eq_right hq.le]
    · have ha : r.actual ≠ 0 := ne_of_gt hp
      simp [qx_raw_pre, ha, pyDiv, he, hp, clipUpper1]
  · rw [cappedCount, List.filter_congr fun r _ => pyGtOne_eq_ratioExceedsOne r]
  · simp [structure_df]

/-- Concrete dataset for the witness: a benign row, a row with a 5/2 ratio
(capped), and a zero-actual row sharing a key. -/
def c3wdf : List ExpRow := [⟨50, 2000, 1, 100⟩, ⟨51, 2000, 5, 2⟩, ⟨51, 2001, 0, 3⟩]

/-- Witness for the amended claim C3 at a concrete dataset. -/
theorem c3_structure_clips_rates_witness :
    (∀ r ∈ structure_df c3wdf, inUnitInterval r.qx_raw = true) ∧
    (∀ r ∈ aggregate c3wdf, ratioExceedsOne r →
      clipUpper1 (qx_raw_pre r) = PyFloat.fin 1) ∧
    cappedCount c3wdf
      = ((aggregate c3wdf).filter fun r => decide (ratioExceedsOne r)).length ∧
    (structure_df c3wdf).length = (aggregate c3wdf).length :=
  c3_structure_clips_rates c3wdf (by decide)

/-!
Lee-Carter decomposition (`LeeCarter.fit`).  The pivoted log-mortality
matrix `log_qx = np.log(crude_pivot)` is taken as an arbitrary rectangular
matrix `L` of finite values (row index: the `Y` years of the pivot, column
index: the `A` ages); a strictly rectangular surface with every `qx_raw`
in (0, 1] produces exactly such a matrix of finite logs.
-/

/-- Age effect `a_x = log_qx.mean(axis=0)`: the per-age mean over years. -/
def a_x (Y A : ℕ) (L : Fin Y → Fin A → ℚ) (a : Fin A) : ℚ :=
  (∑ y, L y a) / Y

/-- Time index `k_t = (log_qx - a_x).sum(axis=1)`: the per-year sum over
ages of the centred log rates. -/
def k_t (Y A : ℕ) (L : Fin Y → Fin A → ℚ) (y : Fin Y) : ℚ :=
  ∑ a, (L y a - a_x Y A L a)

/-- Age sensitivity `b_x = e2 / e4` with
`e2 = ((log_qx - a_x) * k_t).sum(axis=0)` and `e4 = (k_t ** 2).sum()`. -/
def b_x (Y A : ℕ) (L : Fin Y → Fin A → ℚ) (a : Fin A) : ℚ :=
  (∑ y, (L y a - a_x Y A L a) * k_t Y A L y) / ∑ y, k_t Y A L y ^ 2

/-- Claim C6: for every rectangular surface with at least one year (all
`qx_raw` in (0, 1] making the log matrix finite), the fitted time index
sums to zero over years, in exact arithmetic. -/
theorem c6_sum_k_t_zero (Y A : ℕ) (L : Fin Y → Fin A → ℚ) (hY : 0 < Y) :
    ∑ y, k_t Y A L y = 0 := by
  have hY0 : (Y : ℚ) ≠ 0 := Nat.cast_ne_zero.mpr hY.ne'
  unfold k_t
  rw [Finset.sum_comm]
  refine Finset.sum_eq_zero fun a _ => ?_
  rw [Finset.sum_sub_distrib, Finset.sum_const, Finset.card_univ, Fintype.card_fin]
  rw [a_x, nsmul_eq_mul, mul_div_cancel₀ _ hY0, sub_self]

/-- The 2×2 log matrix of the spec's end-to-end scenario (any finite
values work; the theorem is applied at this one). -/
def c6L : Fin 2 → Fin 2 → ℚ := fun y a => (y : ℚ) + 2 * (a : ℚ) - 5

/-- Witness for claim C6 at a concrete 2 years × 2 ages log matrix. -/
theorem c6_sum_k_t_zero_witness : ∑ y, k_t 2 2 c6L y = 0 :=
  c6_sum_k_t_zero 2 2 c6L (by norm_num)

/-!
Forecasting (`LeeCarter.forecast`, `CBD.forecast`).  Both methods build the
future index as `series.iloc[-1] + mu * np.arange(1, years + 1)
+ rng.normal(scale=variance, size=years)` with the local `variance = 0`.
-/

/-- Models `np.arange(1, years + 1)` as rationals. -/
def arange1 (years : ℕ) : List ℚ :=
  (List.range years).map fun i : ℕ => ((i : ℚ) + 1)

/-- Models `rng.normal(loc=0, scale=variance, size=n)` with the hardcoded
`variance = 0`: a zero-scale normal variate equals its mean exactly, so
the sample is `n` zeros and the walk is deterministic. -/
def rngNormalScale0 (n : ℕ) : List ℚ :=
  List.replicate n 0

/-- Models `mu = (series.iloc[-1] - series.iloc[0]) / len(series)`: the average
change used as drift (LeeCarter's `k_t`, CBD's `k_t_1` and `k_t_2`). -/
def driftMu (kt : List ℚ) : ℚ :=
  (kt.getLast?.getD 0 - kt.head?.getD 0) / kt.length

/-- The future index series
`series.iloc[-1] + mu * np.arange(1, years + 1) + rng.normal(scale=0, size=years)`. -/
def driftWalk (kt : List ℚ) (years : ℕ) : List ℚ :=
  List.zipWith (fun d n => kt.getLast?.getD 0 + d + n)
    ((arange1 years).map fun h => driftMu kt * h)
    (rngNormalScale0 years)

/-- Models `np.outer(u, v).transpose()`: entry (i, j) is `u[j] * v[i]` (rows
indexed by `v`, columns by `u`). -/
def outerT (u v : List ℚ) : List (List ℚ) :=
  v.map fun vi => u.map fun uj => uj * vi

/-- numpy broadcast of a row vector over each row of a matrix
(`a_x.values + b_x_k_t_i.values`). -/
def addRowVec (a : List ℚ) (m : List (List ℚ)) : List (List ℚ) :=
  m.map fun row => List.zipWith (· + ·) a row

/-- The fitted LeeCarter parameters (the instance fields set by `fit`):
pivot column ages, ascending pivot index years, and the aligned `a_x`,
`b_x`, `k_t` value lists. -/
structure LCFit where
  ages : List ℤ
  ktYears : List ℤ
  a_xv : List ℚ
  b_xv : List ℚ
  ktVals : List ℚ
deriving Repr

/-- The fitted CBD parameters (instance fields set by `fit`): pivot column
ages, ascending pivot index years, and the aligned `age_diff`, `k_t_1`,
`k_t_2` value lists. -/
structure CBDFit where
  ages : List ℤ
  ktYears : List ℤ
  ageDiff : List ℚ
  k1Vals : List ℚ
  k2Vals : List ℚ
deriving Repr

/-- A forecast output frame: future-year index, age columns, rate rows. -/
structure ForecastFrame where
  index : List ℤ
  cols : List ℤ
  rates : List (List ℚ)
deriving DecidableEq, Repr

/-- Models `year_cols = list(range(index[-1] + 1, index[-1] + years + 1))`. -/
def forecastYearCols (lastYear : ℤ) (years : ℕ) : List ℤ :=
  (List.range years).map fun i : ℕ => (lastYear + 1 + (i : ℤ))

/-- Models `LeeCarter.forecast` after the fitted check:
`qx_log_lc = a_x.values + np.outer(b_x, k_t_i).transpose()` and
`qx_lc = np.exp(qx_log_lc)`, framed with `year_cols` as index and the
pivot ages as columns; `exp` is the elementwise exponential map. -/
def lcForecast (exp : ℚ → ℚ) (f : LCFit) (years : ℕ) : ForecastFrame where
  index := forecastYearCols (f.ktYears.getLast?.getD 0) years
  cols := f.ages
  rates := (addRowVec f.a_xv (outerT f.b_xv (driftWalk f.ktVals years))).map
    (List.map exp)

/-- Models `exp(x) / (1 + exp(x))`: the inverse logit, for the elementwise map. -/
def invLogit (exp : ℚ → ℚ) (x : ℚ) : ℚ :=
  exp x / (1 + exp x)

/-- Models `CBD.forecast` after the fitted check: `k_1_f`, `k_2_f` by the same
zero-noise drift walk, `qx_logit_cbd[h] = k_1_f[h] + age_diff * k_2_f[h]`,
`qx_cbd = exp(.)/(1 + exp(.))` elementwise, same `year_cols` rule on
`k_t_1.index`. -/
def cbdForecast (exp : ℚ → ℚ) (g : CBDFit) (years : ℕ) : ForecastFrame where
  index := forecastYearCols (g.ktYears.getLast?.getD 0) years
  cols := g.ages
  rates := (List.zipWith
      (fun x1 x2 => g.ageDiff.map fun d => x1 + d * x2)
      (driftWalk g.k1Vals years) (driftWalk g.k2Vals years)).map
    (List.map (invLogit exp))

theorem driftWalk_getElem (kt : List ℚ) (years h : ℕ) (hh : h < years) :
    (driftWalk kt years)[h]? =
      some (kt.getLast?.getD 0 + driftMu kt * ((h : ℚ) + 1)) := by
  rw [driftWalk, List.getElem?_zipWith', List.getElem?_map, arange1,
    List.getElem?_map, List.getElem?_range hh, rngNormalScale0,
    List.getElem?_replicate, if_pos hh]
  simp

/-- Claim C4: for every fitted model, forecast is the deterministic drift
path.  The LeeCarter rate at horizon step h (0-based) and age column j is
`exp(a_x[j] + b_x[j] * (k_t[last] + mu * (h + 1)))` with
`mu = (k_t[last] - k_t[first]) / len(k_t)`; CBD extrapolates `k_t_1` and
`k_t_2` independently by the same rule and applies the inverse logit to
`k_t_1_f[h] + age_diff[jd] * k_t_2_f[h]`.  The zero-variance noise term
contributes nothing. -/
theorem c4_forecast_deterministic_drift (exp : ℚ → ℚ) (f : LCFit) (g : CBDFit)
    (years h j jd : ℕ) (hh : h < years) (hja : j < f.a_xv.length)
    (hjb : j < f.b_xv.length) (hjd : jd < g.ageDiff.length) :
    ((lcForecast exp f years).rates[h]?.bind fun row => row[j]?)
      = some (exp (f.a_xv[j] + f.b_xv[j] *
          (f.ktVals.getLast?.getD 0
            + (f.ktVals.getLast?.getD 0 - f.ktVals.head?.getD 0)
              / f.ktVals.length * ((h : ℚ) + 1)))) ∧
    ((cbdForecast exp g years).rates[h]?.bind fun row => row[jd]?)
      = some (invLogit exp
          ((g.k1Vals.getLast?.getD 0
              + (g.k1Vals.getLast?.getD 0 - g.k1Vals.head?.getD 0)
                / g.k1Vals.length * ((h : ℚ) + 1))
            + g.ageDiff[jd] *
              (g.k2Vals.getLast?.getD 0
                + (g.k2Vals.getLast?.getD 0 - g.k2Vals.head?.getD 0)
                  / g.k2Vals.length * ((h : ℚ) + 1)))) := by
  constructor
  · rw [lcForecast]
    simp only [addRowVec, outerT]
    simp [List.getElem?_map, driftWalk_getElem f.ktVals years h hh,
      List.getElem?_zipWith', List.getElem?_eq_getElem hja,
      List.getElem?_eq_getElem hjb, driftMu]
  · rw [cbdForecast]
    simp [List.getElem?_zipWith', List.getElem?_map,
      driftWalk_getElem g.k1Vals years h hh, driftWalk_getElem g.k2Vals years h hh,
      List.getElem?_eq_getElem hjd, driftMu]

/-- Witness for claim C4 at a concrete fitted state and horizon. -/
theorem c4_forecast_deterministic_drift_witness :
    ((lcForecast id ⟨[50, 51], [2000, 2001], [1, 2], [3, 4], [5, 6]⟩ 2).rates[1]?.bind
        fun row => row[0]?)
      = some (id ((1 : ℚ) + 3 * (6 + (6 - 5) / 2 * ((1 : ℚ) + 1)))) ∧
    ((cbdForecast id ⟨[50, 51], [2000, 2001], [7, 8], [1, 3], [2, 6]⟩ 2).rates[1]?.bind
        fun row => row[0]?)
      = some (invLogit id
          (((3 : ℚ) + (3 - 1) / 2 * ((1 : ℚ) + 1))
            + 7 * ((6 : ℚ) + (6 - 2) / 2 * ((1 : ℚ) + 1)))) := by
  have h := c4_forecast_deterministic_drift id
    ⟨[50, 51], [2000, 2001], [1, 2], [3, 4], [5, 6]⟩
    ⟨[50, 51], [2000, 2001], [7, 8], [1, 3], [2, 6]⟩
    2 1 0 0 (by norm_num) (by norm_num) (by norm_num) (by norm_num)
  simpa using h

theorem forecastYearCols_getElem (last : ℤ) (years i : ℕ) (hi : i < years) :
    (forecastYearCols last years)[i]? = some (last + 1 + (i : ℤ)) := by
  rw [forecastYearCols, List.getElem?_map, List.getElem?_range hi]
  rfl

/-- Claim C5: for every fitted model and `years ≥ 1`, the forecast frame is
indexed by exactly `years` year keys; the i-th new key is
`last fitted year + 1 + i` (so the keys are contiguous, strictly
increasing, and immediately follow the last fitted year), and the new keys
are disjoint from the fitted years.  The pivot index is ascending, so the
last fitted year is its maximum (hypotheses `hmax`, `gmax`). -/
theorem c5_forecast_year_keys (exp : ℚ → ℚ) (f : LCFit) (g : CBDFit) (years : ℕ)
    (hy : 1 ≤ years)
    (hmax : ∀ y ∈ f.ktYears, y ≤ f.ktYears.getLast?.getD 0)
    (gmax : ∀ y ∈ g.ktYears, y ≤ g.ktYears.getLast?.getD 0) :
    (lcForecast exp f years).index.length = years ∧
    (lcForecast exp f years).index[0]? = some (f.ktYears.getLast?.getD 0 + 1) ∧
    (∀ i, i < years → (lcForecast exp f years).index[i]?
        = some (f.ktYears.getLast?.getD 0 + 1 + (i : ℤ))) ∧
    (∀ y ∈ f.ktYears, y ∉ (lcForecast exp f years).index) ∧
    (cbdForecast exp g years).index.length = years ∧
    (cbdForecast exp g years).index[0]? = some (g.ktYears.getLast?.getD 0 + 1) ∧
    (∀ i, i < years → (cbdForecast exp g years).index[i]?
        = some (g.ktYears.getLast?.getD 0 + 1 + (i : ℤ))) ∧
    (∀ y ∈ g.ktYears, y ∉ (cbdForecast exp g years).index) := by
  have hlen : ∀ last : ℤ, (forecastYearCols last years).length = years := by
    intro last
    simp [forecastYearCols]
  have hdisj : ∀ (ky : List ℤ), (∀ y ∈ ky, y ≤ ky.getLast?.getD 0) →
      ∀ y ∈ ky, y ∉ forecastYearCols (ky.getLast?.getD 0) years := by
    intro ky hk y hyk hymem
    rw [forecastYearCols, List.mem_map] at hymem
    obtain ⟨i, _, rfl⟩ := hymem
    have := hk _ hyk
    omega
  refine ⟨hlen _, ?_, ?_, hdisj f.ktYears hmax, hlen _, ?_, ?_, hdisj g.ktYears gmax⟩
  · simpa using forecastYearCols_getElem (f.ktYears.getLast?.getD 0) years 0 hy
  · exact fun i hi => forecastYearCols_getElem _ years i hi
  · simpa using forecastYearCols_getElem (g.ktYears.getLast?.getD 0) years 0 hy
  · exact fun i hi => forecastYearCols_getElem _ years i hi

/-- Witness for claim C5 at concrete fitted states and a 3-year horizon. -/
theorem c5_forecast_year_keys_witness :
    (lcForecast id ⟨[50, 51], [2000, 2001], [1, 2], [3, 4], [5, 6]⟩ 3).index.length = 3 ∧
    (lcForecast id ⟨[50, 51], [2000, 2001], [1, 2], [3, 4], [5, 6]⟩ 3).index[0]?
      = some 2002 ∧
    (∀ y ∈ [2000, 2001],
      y ∉ (lcForecast id ⟨[50, 51], [2000, 2001], [1, 2], [3, 4], [5, 6]⟩ 3).index) ∧
    (cbdForecast id ⟨[50, 51], [2000, 2001], [7, 8], [1, 3], [2, 6]⟩ 3).index.length = 3 := by
  have h := c5_forecast_year_keys id
    ⟨[50, 51], [2000, 2001], [1, 2], [3, 4], [5, 6]⟩
    ⟨[50, 51], [2000, 2001], [7, 8], [1, 3], [2, 6]⟩
    3 (by norm_num) (by decide) (by decide)
  refine ⟨h.1, by simpa using h.2.1, ?_, h.2.2.2.2.1⟩
  intro y hy
  refine h.2.2.2.1 y ?_
  simpa using hy

/-!
Untyped frame model, for the column-presence, pivot and merge semantics of
`fit` and `map`.
-/

/-- An untyped cell value of a DataFrame. -/
inductive Cell where
  | int (z : ℤ)
  | flt (x : PyFloat)
  | str (s : String)
  | na
deriving DecidableEq, Repr

/-- One row: an association list from column label to value. -/
abbrev Row := List (String × Cell)

/-- The value of a row at a column label (first binding). -/
def rowGet (r : Row) (c : String) : Option Cell :=
  r.lookup c

/-- A DataFrame: ordered column labels and rows keyed by them. -/
structure Frame where
  cols : List String
  rows : List Row
deriving DecidableEq, Repr

/-- Error outcomes of the embedded methods.  `missingColumns` and
`requiredColumns` are the two ValueError shapes the spec names
MissingColumnError (`structure_df`'s "Missing columns in DataFrame: ..."
and `fit`/`map`'s "... are required"); `modelNotFitted` is the spec's
ModelNotFittedError ("model is not fitted use fit method ...");
`keyError` and `duplicateEntries` are raised inside pandas;
`noneTypeAttribute` is a Python AttributeError from reading an attribute
of a still-None field. -/
inductive Err where
  | missingColumns (cols : List String)
  | requiredColumns
  | modelNotFitted
  | keyError (c : String)
  | duplicateEntries
  | noneTypeAttribute
deriving DecidableEq, Repr

instance {ε α : Type} [DecidableEq ε] [DecidableEq α] :
    DecidableEq (Except ε α) := fun a b =>
  match a, b with
  | .ok x, .ok y =>
    if h : x = y then .isTrue (by rw [h]) else .isFalse (by simp [h])
  | .error x, .error y =>
    if h : x = y then .isTrue (by rw [h]) else .isFalse (by simp [h])
  | .ok _, .error _ => .isFalse (by simp)
  | .error _, .ok _ => .isFalse (by simp)

/-- A pivoted grid: index keys, column keys, and the cell matrix, `none`
marking an (index, column) combination with no observation (NaN). -/
structure PivotGrid where
  index : List Cell
  columns : List Cell
  cells : List (List (Option Cell))
deriving DecidableEq, Repr

/-- Models `DataFrame.pivot(index=ic, columns=cc, values=vc)`: KeyError when one
of the three labels is absent; ValueError when some (index, columns) key
pair occurs twice; otherwise the rectangular grid over the distinct keys,
with `none` (NaN) at combinations that have no row.  (pandas sorts the
keys; no claim settled here depends on the key order.) -/
def framePivot (f : Frame) (ic cc vc : String) : Except Err PivotGrid :=
  if ¬ ic ∈ f.cols then .error (.keyError ic)
  else if ¬ cc ∈ f.cols then .error (.keyError cc)
  else if ¬ vc ∈ f.cols then .error (.keyError vc)
  else if ¬ (f.rows.map fun r =>
      ((rowGet r ic).getD .na, (rowGet r cc).getD .na)).Nodup then
    .error .duplicateEntries
  else
    .ok
      { index := (f.rows.map fun r => (rowGet r ic).getD .na).dedup
        columns := (f.rows.map fun r => (rowGet r cc).getD .na).dedup
        cells := ((f.rows.map fun r => (rowGet r ic).getD .na).dedup).map fun y =>
          ((f.rows.map fun r => (rowGet r cc).getD .na).dedup).map fun a =>
            (f.rows.find? fun r =>
              ((rowGet r ic).getD .na == y) && ((rowGet r cc).getD .na == a)).map
              fun r => (rowGet r vc).getD .na }

/-- Models `LeeCarter.fit`: the explicit guard `if year_col not in lc_df.columns
or age_col not in lc_df.columns: raise ValueError(...)` (the spec's
MissingColumnError), then the pivot on `qx_raw`.  Everything after the
pivot (np.log, the skipna means and sums behind `a_x`/`k_t`/`b_x`, the
left merge of `qx_lc`) raises no exception — missing combinations flow
through as NaN cells — so the error behaviour of `fit` is exactly this
prefix; the decomposition algebra itself is modelled by `a_x`, `k_t`,
`b_x` above. -/
def lcFitPivot (yearCol ageCol : String) (f : Frame) : Except Err PivotGrid :=
  if ¬ yearCol ∈ f.cols ∨ ¬ ageCol ∈ f.cols then .error .requiredColumns
  else framePivot f yearCol ageCol "qx_raw"

/-- Models `CBD.fit`: no column guard exists; the pivot is the first operation,
so a missing year/age column surfaces as a pandas KeyError.  As for
LeeCarter, nothing after the pivot raises. -/
def cbdFitPivot (yearCol ageCol : String) (f : Frame) : Except Err PivotGrid :=
  framePivot f yearCol ageCol "qx_raw"

/-- Whether a pivoted grid carries a missing (NaN) cell. -/
def gridIncomplete (g : PivotGrid) : Bool :=
  g.cells.any fun row => row.any fun c => c.isNone

/-- A structured surface frame that has the year column but no age column. -/
def c10f : Frame where
  cols := ["observation_year", "qx_raw"]
  rows := [[("observation_year", .int 2000), ("qx_raw", .flt (.fin 1))]]

/-- Claim C10 is false for CBD: on a surface missing the age column,
CBD.fit reaches the pivot and fails with a pandas KeyError, not with the
MissingColumnError-style guard that LeeCarter.fit raises. -/
theorem c10_cbd_no_column_guard_counterexample :
    cbdFitPivot "observation_year" "attained_age" c10f
      = .error (.keyError "attained_age") ∧
    cbdFitPivot "observation_year" "attained_age" c10f
      ≠ .error .requiredColumns := by
  decide

/-- Claim C10 (amended): when the year or age column is absent,
LeeCarter.fit raises its MissingColumnError-style ValueError before any
computation, while CBD.fit has no such guard and fails inside the pivot
with a KeyError naming the missing label. -/
theorem c10_fit_missing_columns (yearCol ageCol : String) (f : Frame)
    (h : ¬ yearCol ∈ f.cols ∨ ¬ ageCol ∈ f.cols) :
    lcFitPivot yearCol ageCol f = .error .requiredColumns ∧
    (¬ yearCol ∈ f.cols →
      cbdFitPivot yearCol ageCol f = .error (.keyError yearCol)) ∧
    (yearCol ∈ f.cols → ¬ ageCol ∈ f.cols →
      cbdFitPivot yearCol ageCol f = .error (.keyError ageCol)) := by
  refine ⟨?_, ?_, ?_⟩
  · rw [lcFitPivot, if_pos h]
  · intro hy
    rw [cbdFitPivot, framePivot, if_pos hy]
  · intro hy ha
    rw [cbdFitPivot, framePivot, if_neg (not_not_intro hy), if_pos ha]

/-- Witness for the amended claim C10 at the concrete deficient surface. -/
theorem c10_fit_missing_columns_witness :
    lcFitPivot "observation_year" "attained_age" c10f = .error .requiredColumns ∧
    (¬ "observation_year" ∈ c10f.cols →
      cbdFitPivot "observation_year" "attained_age" c10f
        = .error (.keyError "observation_year")) ∧
    ("observation_year" ∈ c10f.cols → ¬ "attained_age" ∈ c10f.cols →
      cbdFitPivot "observation_year" "attained_age" c10f
        = .error (.keyError "attained_age")) :=
  c10_fit_missing_columns "observation_year" "attained_age" c10f
    (Or.inr (by decide))

/-- An incomplete surface frame: ages {50, 51} and years {2000, 2001}
observed, but no row for the (51, 2001) combination. -/
def c2f : Frame where
  cols := ["attained_age", "observation_year", "qx_raw"]
  rows :=
    [[("attained_age", .int 50), ("observation_year", .int 2000),
      ("qx_raw", .flt (.fin 1))],
     [("attained_age", .int 50), ("observation_year", .int 2001),
      ("qx_raw", .flt (.fin 1))],
     [("attained_age", .int 51), ("observation_year", .int 2000),
      ("qx_raw", .flt (.fin 1))]]

/-- Claim C2 is false: on an incomplete surface neither LeeCarter.fit nor
CBD.fit fails — no IncompleteSurfaceError (or any error) is raised; the
pivot simply carries a missing (NaN) cell into the algebra. -/
theorem c2_no_incomplete_surface_error_counterexample :
    (lcFitPivot "observation_year" "attained_age" c2f).isOk = true ∧
    (cbdFitPivot "observation_year" "attained_age" c2f).isOk = true ∧
    ((lcFitPivot "observation_year" "attained_age" c2f).toOption.map gridIncomplete)
      = some true := by
  decide

/-- Claim C2 (amended): the code performs no completeness check.  Whenever
the surface carries the year, age and qx_raw columns and no duplicated
(year, age) key, fit succeeds on both models — including on incomplete
surfaces, whose missing combinations become NaN cells in the pivot (which
the downstream skipna aggregations then silently skip). -/
theorem c2_fit_accepts_incomplete_surface (yearCol ageCol : String) (f : Frame)
    (hy : yearCol ∈ f.cols) (ha : ageCol ∈ f.cols) (hq : "qx_raw" ∈ f.cols)
    (hnd : (f.rows.map fun r =>
      ((rowGet r yearCol).getD .na, (rowGet r ageCol).getD .na)).Nodup) :
    (lcFitPivot yearCol ageCol f).isOk = true ∧
    cbdFitPivot yearCol ageCol f = lcFitPivot yearCol ageCol f := by
  have hguard : ¬ (¬ yearCol ∈ f.cols ∨ ¬ ageCol ∈ f.cols) := by
    rintro (hc | hc) <;> exact hc (by assumption)
  rw [lcFitPivot, if_neg hguard, cbdFitPivot, framePivot,
    if_neg (not_not_intro hy), if_neg (not_not_intro ha),
    if_neg (not_not_intro hq), if_neg (not_not_intro hnd)]
  exact ⟨rfl, rfl⟩

/-- Witness for the amended claim C2 at the concrete incomplete surface. -/
theorem c2_fit_accepts_incomplete_surface_witness :
    (lcFitPivot "observation_year" "attained_age" c2f).isOk = true ∧
    cbdFitPivot "observation_year" "attained_age" c2f
      = lcFitPivot "observation_year" "attained_age" c2f :=
  c2_fit_accepts_incomplete_surface "observation_year" "attained_age" c2f
    (by decide) (by decide) (by decide) (by decide)

/-- Models `df[[c1, ..., cn]]` column selection; pandas raises KeyError when a
requested label is absent. -/
def selectCols (f : Frame) (cs : List String) : Except Err Frame :=
  match cs.find? fun c => !(f.cols.contains c) with
  | some c => .error (.keyError c)
  | none => .ok
      { cols := cs
        rows := f.rows.map fun r => cs.map fun c => (c, (rowGet r c).getD .na) }

/-- Models `pd.merge(left, right, on=keys, how="left", suffixes=(sl, sr))`:
non-key labels occurring in both frames get the respective suffix; each
left row is emitted once per matching right row, or once with NA-filled
right values when no right row matches. -/
def mergeLeft (left right : Frame) (keys : List String) (sl sr : String) :
    Frame :=
  let overlap := left.cols.filter fun c =>
    right.cols.contains c && !keys.contains c
  let lren := fun c => if overlap.contains c then c ++ sl else c
  let rren := fun c => if overlap.contains c then c ++ sr else c
  let rcols := right.cols.filter fun c => !keys.contains c
  { cols := left.cols.map lren ++ rcols.map rren
    rows := left.rows.flatMap fun lr =>
      let ms := right.rows.filter fun rr =>
        keys.all fun k => (rowGet lr k).getD .na == (rowGet rr k).getD .na
      let lbase := lr.map fun p => (lren p.1, p.2)
      if ms.isEmpty then
        [lbase ++ rcols.map fun c => (rren c, Cell.na)]
      else
        ms.map fun rr =>
          lbase ++ rcols.map fun c => (rren c, (rowGet rr c).getD .na) }

/-- Models `df.drop(columns=[c])`: removes every column labelled `c`. -/
def dropCol (f : Frame) (c : String) : Frame where
  cols := f.cols.filter fun c2 => c2 != c
  rows := f.rows.map fun r => r.filter fun p => p.1 != c

/-- Models `LeeCarter.map` / `CBD.map` (the two bodies are textually identical up
to the rate label `qx_lc` vs `qx_cbd`), taken at the default
age_col/year_col arguments, where the initial
`rename(columns={self.age_col: age_col, ...})` is the identity: the
not-fitted guard on the stored frame, the "... are required" column
guard, the `[age_col, year_col, rate]` selection (a pandas KeyError while
the rate column does not exist yet), the left merge onto the caller's df
with `suffixes=("_old", "")`, and the drop of `rate_old` when present.
The caller's frame is never mutated (all operations build new frames). -/
def modelMap (rate : String) (stored : Option Frame) (df : Frame)
    (ageCol yearCol : String) : Except Err Frame :=
  match stored with
  | none => .error .modelNotFitted
  | some s =>
    if ¬ yearCol ∈ s.cols ∨ ¬ ageCol ∈ s.cols then .error .requiredColumns
    else
      match selectCols s [ageCol, yearCol, rate] with
      | .error e => .error e
      | .ok sub =>
        let merged := mergeLeft df sub [ageCol, yearCol] "_old" ""
        .ok (if (rate ++ "_old") ∈ merged.cols then
          dropCol merged (rate ++ "_old") else merged)

theorem flatMap_singleton_eq_map {α β : Type} (l : List α) (f : α → List β)
    (g : α → β) (h : ∀ a ∈ l, f a = [g a]) : l.flatMap f = l.map g := by
  induction l with
  | nil => rfl
  | cons x xs ih =>
    rw [List.flatMap_cons, h x (List.mem_cons_self x xs),
      ih fun a ha => h a (List.mem_cons_of_mem x ha), List.map_cons]
    rfl

theorem find?_eq_of_filter_eq_singleton {α : Type} (l : List α) (p : α → Bool)
    (a : α) (h : l.filter p = [a]) : l.find? p = some a := by
  induction l with
  | nil => simp at h
  | cons x xs ih =>
    rw [List.filter_cons] at h
    by_cases hx : p x
    · rw [if_pos hx] at h
      rw [List.find?_cons_of_pos _ hx]
      exact congrArg some (List.head_eq_of_cons_eq h).symm ▸ rfl
    · rw [if_neg hx] at h
      rw [List.find?_cons_of_neg _ hx]
      exact ih h

theorem filter_len_le_one_of_pairwise {α : Type} (l : List α) (p : α → Bool)
    (h : List.Pairwise (fun a b => ¬(p a = true ∧ p b = true)) l) :
    (l.filter p).length ≤ 1 := by
  induction l with
  | nil => simp
  | cons x xs ih =>
    rcases List.pairwise_cons.mp h with ⟨hx, hxs⟩
    rw [List.filter_cons]
    by_cases hpx : p x
    · rw [if_pos hpx]
      have hnil : xs.filter p = [] := by
        rw [List.filter_eq_nil_iff]
        exact fun a ha hpa => hx a ha ⟨hpx, hpa⟩
      rw [hnil]
      simp
    · rw [if_neg hpx]
      exact ih hxs

theorem lookup_map_rename (r : Row) (rn : String → String) (c : String)
    (hfix : rn c = c) (hinj : ∀ p ∈ r, rn p.1 = c → p.1 = c) :
    (r.map fun p => (rn p.1, p.2)).lookup c = r.lookup c := by
  induction r with
  | nil => rfl
  | cons p ps ih =>
    by_cases hc : p.1 = c
    · rw [List.map_cons]
      have h1 : (c == rn p.1) = true := by
        rw [hc, hfix]
        exact beq_self_eq_true c
      have h2 : (c == p.1) = true := by
        rw [hc]
        exact beq_self_eq_true c
      simp only [List.lookup, h1, h2]
    · rw [List.map_cons]
      have h1 : (c == rn p.1) = false := by
        rw [beq_eq_false_iff_ne]
        exact fun hcr => hc (hinj p (List.mem_cons_self p ps) hcr.symm)
      have h2 : (c == p.1) = false := by
        rw [beq_eq_false_iff_ne]
        exact fun hcr => hc hcr.symm
      simp only [List.lookup, h1, h2]
      exact ih fun q hq => hinj q (List.mem_cons_of_mem p hq)

theorem lookup_append_of_isSome (l1 l2 : Row) (c : String)
    (h : (l1.lookup c).isSome) : (l1 ++ l2).lookup c = l1.lookup c := by
  induction l1 with
  | nil => simp [List.lookup] at h
  | cons p ps ih =>
    rw [List.cons_append]
    by_cases hc : (c == p.1) = true
    · simp only [List.lookup, hc]
    · rw [Bool.not_eq_true] at hc
      simp only [List.lookup, hc] at h ⊢
      exact ih h

theorem lookup_append_of_eq_none (l1 l2 : Row) (c : String)
    (h : l1.lookup c = none) : (l1 ++ l2).lookup c = l2.lookup c := by
  induction l1 with
  | nil => rfl
  | cons p ps ih =>
    rw [List.cons_append]
    by_cases hc : (c == p.1) = true
    · simp only [List.lookup, hc] at h
      exact Option.noConfusion h
    · rw [Bool.not_eq_true] at hc
      simp only [List.lookup, hc] at h ⊢
      exact ih h

theorem lookup_isSome_of_mem_keys (r : Row) (c : String)
    (h : c ∈ r.map Prod.fst) : (r.lookup c).isSome := by
  induction r with
  | nil => simp at h
  | cons p ps ih =>
    rw [List.map_cons, List.mem_cons] at h
    by_cases hc : (c == p.1) = true
    · simp only [List.lookup, hc, Option.isSome_some]
    · rw [Bool.not_eq_true] at hc
      simp only [List.lookup, hc]
      rcases h with h | h
      · rw [beq_eq_false_iff_ne] at hc
        exact absurd h hc
      · exact ih h

theorem lookup_eq_none_of_not_mem_keys (r : Row) (c : String)
    (h : ¬ c ∈ r.map Prod.fst) : r.lookup c = none := by
  induction r with
  | nil => rfl
  | cons p ps ih =>
    rw [List.map_cons, List.mem_cons] at h
    push_neg at h
    have hc : (c == p.1) = false := by
      rw [beq_eq_false_iff_ne]
      exact h.1
    simp only [List.lookup, hc]
    exact ih h.2

/-- The fitted surface frame for the map counterexample. -/
def c7fit : Frame where
  cols := ["attained_age", "observation_year", "qx_lc"]
  rows := [[("attained_age", .int 50), ("observation_year", .int 2000),
    ("qx_lc", .flt (.fin 1))]]

/-- A caller dataset that happens to carry a `qx_lc_old` column. -/
def c7caller : Frame where
  cols := ["attained_age", "observation_year", "qx_lc_old"]
  rows := [[("attained_age", .int 50), ("observation_year", .int 2000),
    ("qx_lc_old", .str "keep")]]

/-- Claim C7, quantified over every caller dataset with the join columns,
is false: a caller column named `qx_lc_old` is silently removed by map's
collision cleanup (`drop(columns=["qx_lc_old"])` drops the caller's own
column even though the merge created no collision). -/
theorem c7_map_drops_old_column_counterexample :
    "qx_lc_old" ∈ c7caller.cols ∧
    (modelMap "qx_lc" (some c7fit) c7caller
        "attained_age" "observation_year").toOption.map
      (fun out => out.cols.contains "qx_lc_old") = some false := by
  decide

theorem lookup_filter_ne (r : Row) (c d : String) (h : c ≠ d) :
    (r.filter fun p => p.1 != d).lookup c = r.lookup c := by
  induction r with
  | nil => rfl
  | cons p ps ih =>
    rw [List.filter_cons]
    by_cases hp : p.1 = d
    · have hb : (p.1 != d) = false := by simp [hp]
      rw [hb]
      have hc : (c == p.1) = false := by
        rw [beq_eq_false_iff_ne]
        rw [hp]
        exact h
      simp only [if_neg Bool.false_ne_true, List.lookup, hc]
      exact ih
    · have hb : (p.1 != d) = true := by simp [hp]
      rw [hb, if_pos rfl]
      by_cases hc : (c == p.1) = true
      · simp only [List.lookup, hc]
      · rw [Bool.not_eq_true] at hc
        simp only [List.lookup, hc]
        exact ih

theorem contains_eq_decide (l : List String) (c : String) :
    l.contains c = decide (c ∈ l) := by
  by_cases h : c ∈ l <;> simp [h]

/-- The matching predicate of the (age, year) left merge, in flattened
form. -/
def joinPred (ageCol yearCol : String) (lr rr : Row) : Bool :=
  ((rowGet lr ageCol).getD Cell.na == (rowGet rr ageCol).getD Cell.na)
    && ((rowGet lr yearCol).getD Cell.na == (rowGet rr yearCol).getD Cell.na)

/-- The rate value the merge attaches to a caller row: the fitted row's
rate when an (age, year) match exists, NaN otherwise. -/
def joinFill (ageCol yearCol rate : String) (subRows : List Row) (lr : Row) :
    Cell :=
  match subRows.find? (joinPred ageCol yearCol lr) with
  | some rr => (rowGet rr rate).getD Cell.na
  | none => Cell.na

theorem mergeLeft_sub_characterization (df : Frame) (subRows : List Row)
    (ageCol yearCol rate : String)
    (hra : rate ≠ ageCol) (hry : rate ≠ yearCol)
    (hrows : ∀ r ∈ df.rows, r.map Prod.fst = df.cols)
    (huniq : List.Pairwise (fun r1 r2 =>
      ¬((rowGet r1 ageCol).getD Cell.na = (rowGet r2 ageCol).getD Cell.na ∧
        (rowGet r1 yearCol).getD Cell.na = (rowGet r2 yearCol).getD Cell.na))
      subRows) :
    mergeLeft df ⟨[ageCol, yearCol, rate], subRows⟩ [ageCol, yearCol] "_old" ""
      = { cols := df.cols.map
            (fun c => if c = rate then rate ++ "_old" else c) ++ [rate]
          rows := df.rows.map fun lr =>
            (lr.map fun p =>
              (if p.1 = rate then rate ++ "_old" else p.1, p.2))
            ++ [(rate, joinFill ageCol yearCol rate subRows lr)] } := by
  have hcont : ∀ c : String,
      ((df.cols.filter fun c0 =>
          ([ageCol, yearCol, rate] : List String).contains c0
          && !(([ageCol, yearCol] : List String).contains c0)).contains c) = true
        ↔ (c ∈ df.cols ∧ c = rate) := by
    intro c
    rw [contains_eq_decide, decide_eq_true_eq, List.mem_filter]
    simp only [contains_eq_decide, Bool.and_eq_true, Bool.not_eq_true',
      decide_eq_true_eq, decide_eq_false_iff_not]
    constructor
    · rintro ⟨h1, h2, h3⟩
      refine ⟨h1, ?_⟩
      rcases (show c = ageCol ∨ c = yearCol ∨ c = rate by simpa using h2)
        with rfl | rfl | rfl
      · exact absurd (by simp) h3
      · exact absurd (by simp) h3
      · rfl
    · rintro ⟨h1, rfl⟩
      exact ⟨h1, by simp, by simp [hra, hry]⟩
  have hrcols : (([ageCol, yearCol, rate] : List String).filter
      fun c => !(([ageCol, yearCol] : List String).contains c)) = [rate] := by
    simp [contains_eq_decide, hra, hry]
  have hpredEq : ∀ lr : Row, (fun rr => ([ageCol, yearCol] : List String).all
        fun k => (rowGet lr k).getD Cell.na == (rowGet rr k).getD Cell.na)
      = joinPred ageCol yearCol lr := by
    intro lr
    funext rr
    simp [joinPred]
  have hlbase : ∀ lr ∈ df.rows, (lr.map fun p =>
      (if ((df.cols.filter fun c0 =>
          ([ageCol, yearCol, rate] : List String).contains c0
          && !(([ageCol, yearCol] : List String).contains c0)).contains p.1)
        then p.1 ++ "_old" else p.1, p.2))
      = lr.map fun p => (if p.1 = rate then rate ++ "_old" else p.1, p.2) := by
    intro lr hlr
    refine List.map_congr_left fun p hp => ?_
    have hpc : p.1 ∈ df.cols := by
      rw [← hrows lr hlr]
      exact List.mem_map_of_mem Prod.fst hp
    by_cases hpr : p.1 = rate
    · rw [if_pos ((hcont p.1).mpr ⟨hpc, hpr⟩), hpr, if_pos rfl]
    · have hfalse : ((df.cols.filter fun c0 =>
          ([ageCol, yearCol, rate] : List String).contains c0
          && !(([ageCol, yearCol] : List String).contains c0)).contains p.1)
          = false := by
        rw [Bool.eq_false_iff]
        intro htrue
        exact hpr ((hcont p.1).mp htrue).2
      rw [hfalse]
      simp [hpr]
  have hrrenRate : ∀ f : String → Cell,
      (([rate] : List String).map fun c =>
        ((if ((df.cols.filter fun c0 =>
            ([ageCol, yearCol, rate] : List String).contains c0
            && !(([ageCol, yearCol] : List String).contains c0)).contains c)
          then c ++ "" else c), f c)) = [(rate, f rate)] := by
    intro f
    rw [List.map_cons, List.map_nil]
    by_cases hb : ((df.cols.filter fun c0 =>
        ([ageCol, yearCol, rate] : List String).contains c0
        && !(([ageCol, yearCol] : List String).contains c0)).contains rate)
        = true
    · rw [if_pos hb, String.append_empty]
    · rw [Bool.not_eq_true] at hb
      rw [hb]
      simp
  have hrrenCols :
      (([rate] : List String).map fun c =>
        (if ((df.cols.filter fun c0 =>
            ([ageCol, yearCol, rate] : List String).contains c0
            && !(([ageCol, yearCol] : List String).contains c0)).contains c)
          then c ++ "" else c)) = [rate] := by
    rw [List.map_cons, List.map_nil]
    by_cases hb : ((df.cols.filter fun c0 =>
        ([ageCol, yearCol, rate] : List String).contains c0
        && !(([ageCol, yearCol] : List String).contains c0)).contains rate)
        = true
    · rw [if_pos hb, String.append_empty]
    · rw [Bool.not_eq_true] at hb
      rw [hb]
      simp
  rw [mergeLeft, Frame.mk.injEq]
  dsimp only
  constructor
  · rw [hrcols, hrrenCols]
    have hmapcols : (df.cols.map fun c =>
        if ((df.cols.filter fun c0 =>
            ([ageCol, yearCol, rate] : List String).contains c0
            && !(([ageCol, yearCol] : List String).contains c0)).contains c)
        then c ++ "_old" else c)
        = df.cols.map fun c => if c = rate then rate ++ "_old" else c := by
      refine List.map_congr_left fun c hc => ?_
      by_cases hcr : c = rate
      · subst hcr
        rw [if_pos ((hcont c).mpr ⟨hc, rfl⟩), if_pos rfl]
      · have hfalse : ((df.cols.filter fun c0 =>
            ([ageCol, yearCol, rate] : List String).contains c0
            && !(([ageCol, yearCol] : List String).contains c0)).contains c)
            = false := by
          rw [Bool.eq_false_iff]
          intro htrue
          exact hcr ((hcont c).mp htrue).2
        rw [hfalse]
        simp [hcr]
    rw [hmapcols]
  · refine flatMap_singleton_eq_map _ _ _ fun lr hlr => ?_
    rw [hpredEq lr, hrcols]
    have hpw : List.Pairwise (fun r1 r2 =>
        ¬(joinPred ageCol yearCol lr r1 = true ∧
          joinPred ageCol yearCol lr r2 = true)) subRows := by
      refine huniq.imp ?_
      intro r1 r2 h12 hp
      rcases hp with ⟨hp1, hp2⟩
      rw [joinPred, Bool.and_eq_true] at hp1 hp2
      exact h12 ⟨(eq_of_beq hp1.1).symm.trans (eq_of_beq hp2.1),
        (eq_of_beq hp1.2).symm.trans (eq_of_beq hp2.2)⟩
    rcases hms : subRows.filter (joinPred ageCol yearCol lr)
      with _ | ⟨rr0, ms2⟩
    · have hfind : subRows.find? (joinPred ageCol yearCol lr) = none :=
        List.find?_eq_none.mpr (List.filter_eq_nil_iff.mp hms)
      have hfill : joinFill ageCol yearCol rate subRows lr = Cell.na := by
        rw [joinFill, hfind]
      rw [List.isEmpty_nil, if_pos rfl, hlbase lr hlr,
        hrrenRate fun c => Cell.na, hfill]
    · rcases ms2 with _ | ⟨rr1, ms3⟩
      · have hfind : subRows.find? (joinPred ageCol yearCol lr) = some rr0 :=
          find?_eq_of_filter_eq_singleton _ _ _ hms
        have hfill : joinFill ageCol yearCol rate subRows lr
            = (rowGet rr0 rate).getD Cell.na := by
          rw [joinFill, hfind]
        have hne : ((rr0 :: []) : List Row).isEmpty = false := rfl
        rw [hne, if_neg Bool.false_ne_true, List.map_cons, List.map_nil,
          hlbase lr hlr, hrrenRate fun c => (rowGet rr0 c).getD Cell.na, hfill]
      · exfalso
        have hle := filter_len_le_one_of_pairwise subRows
          (joinPred ageCol yearCol lr) hpw
        rw [hms] at hle
        simp at hle

theorem rowGet_subRow (r : Row) (ageCol yearCol rate : String)
    (hay : ageCol ≠ yearCol) (hra : rate ≠ ageCol) (hry : rate ≠ yearCol) :
    rowGet (([ageCol, yearCol, rate] : List String).map
        fun c => (c, (rowGet r c).getD Cell.na)) ageCol
      = some ((rowGet r ageCol).getD Cell.na) ∧
    rowGet (([ageCol, yearCol, rate] : List String).map
        fun c => (c, (rowGet r c).getD Cell.na)) yearCol
      = some ((rowGet r yearCol).getD Cell.na) ∧
    rowGet (([ageCol, yearCol, rate] : List String).map
        fun c => (c, (rowGet r c).getD Cell.na)) rate
      = some ((rowGet r rate).getD Cell.na) := by
  have h1 : (yearCol == ageCol) = false := beq_eq_false_iff_ne.mpr (Ne.symm hay)
  have h2 : (rate == ageCol) = false := beq_eq_false_iff_ne.mpr hra
  have h3 : (rate == yearCol) = false := beq_eq_false_iff_ne.mpr hry
  refine ⟨?_, ?_, ?_⟩ <;>
    simp [rowGet, List.lookup, h1, h2, h3]

/-- Claim C7 (amended): provided the caller dataset carries no column
named `rate_old` (`qx_lc_old` / `qx_cbd_old`) — the counterexample shows
such a column is silently dropped by the cleanup step — map on a fitted
model succeeds and returns a new frame with: the caller's exact row count;
every original caller column other than the rate column still present; no
duplicated labels (the rate column is added once, overwriting rather than
duplicating a same-named caller column); every non-rate caller column's
value unchanged on every row; and a missing (NaN) rate on every caller row
without an (age, year) match in the fitted surface.  The fitted surface
has unique (age, year) keys (`hkeys`: guaranteed after a successful fit,
whose pivot rejects duplicate keys) and rows labelled by its columns; the
caller's input frame is untouched (all operations construct new frames). -/
theorem c7_map_preserves_caller_frame (rate ageCol yearCol : String)
    (s df : Frame)
    (hay : ageCol ≠ yearCol) (hra : rate ≠ ageCol) (hry : rate ≠ yearCol)
    (hsa : ageCol ∈ s.cols) (hsy : yearCol ∈ s.cols) (hsr : rate ∈ s.cols)
    (hda : ageCol ∈ df.cols) (hdy : yearCol ∈ df.cols)
    (hdnd : df.cols.Nodup) (hdold : ¬ (rate ++ "_old") ∈ df.cols)
    (hrowsdf : ∀ r ∈ df.rows, r.map Prod.fst = df.cols)
    (hkeys : (s.rows.map fun r =>
      ((rowGet r ageCol).getD Cell.na, (rowGet r yearCol).getD Cell.na)).Nodup) :
    ∃ out, modelMap rate (some s) df ageCol yearCol = .ok out ∧
      out.rows.length = df.rows.length ∧
      (∀ c ∈ df.cols, c ≠ rate → c ∈ out.cols) ∧
      rate ∈ out.cols ∧ out.cols.Nodup ∧
      (∀ i : ℕ, ∀ c ∈ df.cols, c ≠ rate →
        (out.rows[i]?.bind fun r => rowGet r c)
          = (df.rows[i]?.bind fun r => rowGet r c)) ∧
      (∀ i : ℕ, ∀ lr, df.rows[i]? = some lr →
        (∀ rr ∈ s.rows,
          ¬((rowGet rr ageCol).getD Cell.na = (rowGet lr ageCol).getD Cell.na ∧
            (rowGet rr yearCol).getD Cell.na
              = (rowGet lr yearCol).getD Cell.na)) →
        (out.rows[i]?.bind fun r => rowGet r rate) = some Cell.na) := by
  have hroldne : (rate ++ "_old") ≠ rate := by
    intro h
    have h2 := congrArg String.length h
    rw [String.length_append] at h2
    have h4 : "_old".length = 4 := rfl
    omega
  -- the [age, year, rate] selection succeeds
  have hsel : selectCols s [ageCol, yearCol, rate]
      = .ok ⟨[ageCol, yearCol, rate], s.rows.map fun r =>
          ([ageCol, yearCol, rate] : List String).map
            fun c => (c, (rowGet r c).getD Cell.na)⟩ := by
    have hfind : (([ageCol, yearCol, rate] : List String).find?
        fun c => !(s.cols.contains c)) = none := by
      rw [List.find?_eq_none]
      intro x hx
      rcases (show x = ageCol ∨ x = yearCol ∨ x = rate by simpa using hx)
        with rfl | rfl | rfl <;> simp [hsa, hsy, hsr]
    simp only [selectCols, hfind]
  -- unique keys carry over to the selected sub-rows
  have huniq : List.Pairwise (fun r1 r2 =>
      ¬((rowGet r1 ageCol).getD Cell.na = (rowGet r2 ageCol).getD Cell.na ∧
        (rowGet r1 yearCol).getD Cell.na = (rowGet r2 yearCol).getD Cell.na))
      (s.rows.map fun r => ([ageCol, yearCol, rate] : List String).map
        fun c => (c, (rowGet r c).getD Cell.na)) := by
    rw [List.pairwise_map]
    have hkeys2 := (List.pairwise_map.mp hkeys)
    refine hkeys2.imp ?_
    intro r1 r2 h12 hcontra
    obtain ⟨hsub1a, hsub1y, _⟩ := rowGet_subRow r1 ageCol yearCol rate hay hra hry
    obtain ⟨hsub2a, hsub2y, _⟩ := rowGet_subRow r2 ageCol yearCol rate hay hra hry
    rw [hsub1a, hsub2a, hsub1y, hsub2y] at hcontra
    simp only [Option.getD_some] at hcontra
    exact h12 (Prod.ext hcontra.1 hcontra.2)
  have hmergeEq := mergeLeft_sub_characterization df
    (s.rows.map fun r => ([ageCol, yearCol, rate] : List String).map
      fun c => (c, (rowGet r c).getD Cell.na))
    ageCol yearCol rate hra hry hrowsdf huniq
  -- plumbing through modelMap
  have hguard : ¬ (¬ yearCol ∈ s.cols ∨ ¬ ageCol ∈ s.cols) := by
    rintro (hc | hc) <;> exact hc (by assumption)
  have hmodel0 : modelMap rate (some s) df ageCol yearCol
      = .ok (if (rate ++ "_old") ∈ (mergeLeft df
            ⟨[ageCol, yearCol, rate], s.rows.map fun r =>
              ([ageCol, yearCol, rate] : List String).map
                fun c => (c, (rowGet r c).getD Cell.na)⟩
            [ageCol, yearCol] "_old" "").cols then
          dropCol (mergeLeft df
            ⟨[ageCol, yearCol, rate], s.rows.map fun r =>
              ([ageCol, yearCol, rate] : List String).map
                fun c => (c, (rowGet r c).getD Cell.na)⟩
            [ageCol, yearCol] "_old" "") (rate ++ "_old")
        else mergeLeft df
            ⟨[ageCol, yearCol, rate], s.rows.map fun r =>
              ([ageCol, yearCol, rate] : List String).map
                fun c => (c, (rowGet r c).getD Cell.na)⟩
            [ageCol, yearCol] "_old" "") := by
    simp only [modelMap, if_neg hguard, hsel]
  rw [hmergeEq] at hmodel0
  -- keys of every merged row
  have hgkeys : ∀ lr ∈ df.rows,
      ((lr.map fun p => (if p.1 = rate then rate ++ "_old" else p.1, p.2))
        ++ [(rate, joinFill ageCol yearCol rate
          (s.rows.map fun r => ([ageCol, yearCol, rate] : List String).map
            fun c => (c, (rowGet r c).getD Cell.na)) lr)]).map Prod.fst
      = df.cols.map (fun c => if c = rate then rate ++ "_old" else c)
        ++ [rate] := by
    intro lr hlr
    rw [List.map_append, List.map_map, ← hrowsdf lr hlr, List.map_map]
    rfl
  -- the drop branch is always taken or is the identity
  have hcase : (if (rate ++ "_old") ∈ (df.cols.map
        (fun c => if c = rate then rate ++ "_old" else c) ++ [rate]) then
      dropCol ⟨df.cols.map (fun c => if c = rate then rate ++ "_old" else c)
          ++ [rate],
        df.rows.map fun lr =>
          (lr.map fun p => (if p.1 = rate then rate ++ "_old" else p.1, p.2))
          ++ [(rate, joinFill ageCol yearCol rate
            (s.rows.map fun r => ([ageCol, yearCol, rate] : List String).map
              fun c => (c, (rowGet r c).getD Cell.na)) lr)]⟩ (rate ++ "_old")
      else ⟨df.cols.map (fun c => if c = rate then rate ++ "_old" else c)
          ++ [rate],
        df.rows.map fun lr =>
          (lr.map fun p => (if p.1 = rate then rate ++ "_old" else p.1, p.2))
          ++ [(rate, joinFill ageCol yearCol rate
            (s.rows.map fun r => ([ageCol, yearCol, rate] : List String).map
              fun c => (c, (rowGet r c).getD Cell.na)) lr)]⟩)
      = dropCol ⟨df.cols.map (fun c => if c = rate then rate ++ "_old" else c)
          ++ [rate],
        df.rows.map fun lr =>
          (lr.map fun p => (if p.1 = rate then rate ++ "_old" else p.1, p.2))
          ++ [(rate, joinFill ageCol yearCol rate
            (s.rows.map fun r => ([ageCol, yearCol, rate] : List String).map
              fun c => (c, (rowGet r c).getD Cell.na)) lr)]⟩ (rate ++ "_old") := by
    by_cases hin : (rate ++ "_old") ∈ (df.cols.map
        (fun c => if c = rate then rate ++ "_old" else c) ++ [rate])
    · rw [if_pos hin]
    · rw [if_neg hin]
      have hnc : ∀ c ∈ df.cols.map
          (fun c => if c = rate then rate ++ "_old" else c) ++ [rate],
          (c != (rate ++ "_old")) = true := by
        intro c hc
        rw [bne_iff_ne]
        intro hceq
        exact hin (hceq ▸ hc)
      rw [dropCol, Frame.mk.injEq]
      dsimp only
      constructor
      · exact (List.filter_eq_self.mpr hnc).symm
      · rw [List.map_map]
        refine (List.map_congr_left fun lr hlr => ?_).symm
        show ((lr.map fun p => (if p.1 = rate then rate ++ "_old" else p.1, p.2))
            ++ [(rate, joinFill ageCol yearCol rate
              (s.rows.map fun r => ([ageCol, yearCol, rate] : List String).map
                fun c => (c, (rowGet r c).getD Cell.na)) lr)]).filter
              (fun p => p.1 != rate ++ "_old")
          = (lr.map fun p => (if p.1 = rate then rate ++ "_old" else p.1, p.2))
            ++ [(rate, joinFill ageCol yearCol rate
              (s.rows.map fun r => ([ageCol, yearCol, rate] : List String).map
                fun c => (c, (rowGet r c).getD Cell.na)) lr)]
        refine List.filter_eq_self.mpr fun p hp => ?_
        rw [bne_iff_ne]
        intro hpeq
        have hpmem : p.1 ∈ ((lr.map fun p =>
            (if p.1 = rate then rate ++ "_old" else p.1, p.2))
            ++ [(rate, joinFill ageCol yearCol rate
              (s.rows.map fun r => ([ageCol, yearCol, rate] : List String).map
                fun c => (c, (rowGet r c).getD Cell.na)) lr)]).map Prod.fst :=
          List.mem_map_of_mem Prod.fst hp
        rw [hgkeys lr hlr] at hpmem
        exact hin (hpeq ▸ hpmem)
  rw [hcase] at hmodel0
  refine ⟨_, hmodel0, ?_, ?_, ?_, ?_, ?_, ?_⟩
  · simp [dropCol]
  · intro c hc hcr
    simp only [dropCol, List.mem_filter, List.mem_append]
    refine ⟨Or.inl ?_, ?_⟩
    · rw [← show (if c = rate then rate ++ "_old" else c) = c by simp [hcr]]
      exact List.mem_map_of_mem _ hc
    · rw [bne_iff_ne]
      intro hceq
      exact hdold (hceq ▸ hc)
  · simp only [dropCol, List.mem_filter, List.mem_append]
    exact ⟨Or.inr (by simp), by rw [bne_iff_ne]; exact fun h => hroldne h.symm⟩
  · refine List.Nodup.filter _ (List.Nodup.append ?_ (by simp) ?_)
    · refine List.Nodup.map_on ?_ hdnd
      intro x hx y hy hxy
      by_cases hxr : x = rate <;> by_cases hyr : y = rate
      · rw [hxr, hyr]
      · rw [if_pos hxr, if_neg hyr] at hxy
        exact absurd (hxy ▸ hy) hdold
      · rw [if_neg hxr, if_pos hyr] at hxy
        exact absurd (hxy.symm ▸ hx) hdold
      · rwa [if_neg hxr, if_neg hyr] at hxy
    · rw [List.disjoint_right]
      intro c hc hcm
      rw [List.mem_singleton] at hc
      rw [List.mem_map] at hcm
      obtain ⟨x, hx, hxe⟩ := hcm
      rw [hc] at hxe
      by_cases hxr : x = rate
      · rw [if_pos hxr] at hxe
        exact hroldne hxe
      · rw [if_neg hxr] at hxe
        exact hxr hxe
  · intro i c hc hcr
    simp only [dropCol, List.map_map, List.getElem?_map]
    cases hdf : df.rows[i]? with
    | none => rfl
    | some lr =>
      have hlr : lr ∈ df.rows := by
        rw [List.getElem?_eq_some_iff] at hdf
        obtain ⟨hlt, hget⟩ := hdf
        exact hget ▸ List.getElem_mem hlt
      simp only [Option.map_some', Option.some_bind, Function.comp]
      have hcold : c ≠ rate ++ "_old" := fun hceq => hdold (hceq ▸ hc)
      simp only [rowGet]
      rw [lookup_filter_ne _ _ _ hcold]
      have hsome : ((lr.map fun p =>
          (if p.1 = rate then rate ++ "_old" else p.1, p.2)).lookup c).isSome := by
        refine lookup_isSome_of_mem_keys _ _ ?_
        rw [List.map_map]
        have hcin : c ∈ lr.map Prod.fst := by
          rw [hrowsdf lr hlr]
          exact hc
        rw [List.mem_map] at hcin ⊢
        obtain ⟨p, hp, hpc⟩ := hcin
        refine ⟨p, hp, ?_⟩
        show (if p.1 = rate then rate ++ "_old" else p.1) = c
        rw [hpc, if_neg hcr]
      rw [lookup_append_of_isSome _ _ _ hsome]
      refine lookup_map_rename lr
        (fun x => if x = rate then rate ++ "_old" else x) c ?_ ?_
      · show (if c = rate then rate ++ "_old" else c) = c
        rw [if_neg hcr]
      · intro p hp hpc
        have hpc2 : (if p.1 = rate then rate ++ "_old" else p.1) = c := hpc
        by_cases hpr : p.1 = rate
        · rw [if_pos hpr] at hpc2
          exact absurd (hpc2.symm ▸ hc) hdold
        · rwa [if_neg hpr] at hpc2
  · intro i lr hdf hnomatch
    have hlr : lr ∈ df.rows := by
      rw [List.getElem?_eq_some_iff] at hdf
      obtain ⟨hlt, hget⟩ := hdf
      exact hget ▸ List.getElem_mem hlt
    simp only [dropCol, List.map_map, List.getElem?_map, hdf,
      Option.map_some', Option.some_bind, Function.comp]
    rw [rowGet, lookup_filter_ne _ _ _ (fun h => hroldne h.symm)]
    have hnone : ((lr.map fun p =>
        (if p.1 = rate then rate ++ "_old" else p.1, p.2)).lookup rate)
        = none := by
      refine lookup_eq_none_of_not_mem_keys _ _ ?_
      rw [List.map_map, List.mem_map]
      rintro ⟨p, hp, hpe⟩
      have hpe2 : (if p.1 = rate then rate ++ "_old" else p.1) = rate := hpe
      by_cases hpr : p.1 = rate
      · rw [if_pos hpr] at hpe2
        exact hroldne hpe2
      · rw [if_neg hpr] at hpe2
        exact hpr hpe2
    rw [lookup_append_of_eq_none _ _ _ hnone]
    have hfindnone : ((s.rows.map fun r =>
        ([ageCol, yearCol, rate] : List String).map
          fun c => (c, (rowGet r c).getD Cell.na)).find?
        (joinPred ageCol yearCol lr)) = none := by
      rw [List.find?_eq_none]
      intro x hx
      rw [List.mem_map] at hx
      obtain ⟨rr, hrr, rfl⟩ := hx
      intro hpred
      rw [joinPred, Bool.and_eq_true] at hpred
      obtain ⟨hsuba, hsuby, _⟩ := rowGet_subRow rr ageCol yearCol rate hay hra hry
      rw [hsuba, hsuby] at hpred
      simp only [Option.getD_some] at hpred
      exact hnomatch rr hrr ⟨(eq_of_beq hpred.1).symm, (eq_of_beq hpred.2).symm⟩
    have hfill : joinFill ageCol yearCol rate
        (s.rows.map fun r => ([ageCol, yearCol, rate] : List String).map
          fun c => (c, (rowGet r c).getD Cell.na)) lr = Cell.na := by
      rw [joinFill, hfindnone]
    rw [hfill]
    simp [List.lookup]

/-- Fitted surface for the witness of the amended claim C7. -/
def c7fitW : Frame where
  cols := ["attained_age", "observation_year", "qx_lc"]
  rows :=
    [[("attained_age", .int 50), ("observation_year", .int 2000),
      ("qx_lc", .flt (.fin 1))],
     [("attained_age", .int 51), ("observation_year", .int 2000),
      ("qx_lc", .flt (.fin 1))]]

/-- Caller dataset for the witness of the amended claim C7: one matching
row and one row with no (age, year) match. -/
def c7callerW : Frame where
  cols := ["attained_age", "observation_year", "policy"]
  rows :=
    [[("attained_age", .int 50), ("observation_year", .int 2000),
      ("policy", .str "A")],
     [("attained_age", .int 60), ("observation_year", .int 2030),
      ("policy", .str "B")]]

/-- Witness for the amended claim C7 at concrete frames. -/
theorem c7_map_preserves_caller_frame_witness :
    ∃ out, modelMap "qx_lc" (some c7fitW) c7callerW
        "attained_age" "observation_year" = .ok out ∧
      out.rows.length = c7callerW.rows.length ∧
      (∀ c ∈ c7callerW.cols, c ≠ "qx_lc" → c ∈ out.cols) ∧
      "qx_lc" ∈ out.cols ∧ out.cols.Nodup ∧
      (∀ i : ℕ, ∀ c ∈ c7callerW.cols, c ≠ "qx_lc" →
        (out.rows[i]?.bind fun r => rowGet r c)
          = (c7callerW.rows[i]?.bind fun r => rowGet r c)) ∧
      (∀ i : ℕ, ∀ lr, c7callerW.rows[i]? = some lr →
        (∀ rr ∈ c7fitW.rows,
          ¬((rowGet rr "attained_age").getD Cell.na
              = (rowGet lr "attained_age").getD Cell.na ∧
            (rowGet rr "observation_year").getD Cell.na
              = (rowGet lr "observation_year").getD Cell.na)) →
        (out.rows[i]?.bind fun r => rowGet r "qx_lc") = some Cell.na) :=
  c7_map_preserves_caller_frame "qx_lc" "attained_age" "observation_year"
    c7fitW c7callerW (by decide) (by decide) (by decide) (by decide) (by decide)
    (by decide) (by decide) (by decide) (by decide) (by decide) (by decide)
    (by decide)

/-!
GLM: formula construction and family selection.
-/

/-- Python `" + ".join(...)` over a list of names. -/
def joinPlus : List String → String
  | [] => ""
  | [x] => x
  | x :: y :: ys => x ++ " + " ++ joinPlus (y :: ys)

/-- Models `GLM.__init__`: `self.X = sm.add_constant(X)` prepends a "const"
column to the caller's feature matrix. -/
def glmInitXCols (xcols : List String) : List String :=
  "const" :: xcols

/-- Python truthiness of the optional mapping dict (`if self.mapping:`):
None and the empty dict are falsy. -/
def mappingTruthy (mapping : Option (List (String × String))) : Bool :=
  match mapping with
  | none => false
  | some m => !m.isEmpty

/-- Models `GLM.get_formula`.  `mapping` is the ordered feature ↦ type dict;
`cat_pass` entries are wrapped in `C(...)` and joined after the others; the
branch conditions test, exactly as the Python `if non_categorical_part and
categorical_part:` chain does, the truthiness (nonemptiness) of the joined
strings.  `xcols` are the columns of `self.X`, the prepended "const"
included. -/
def get_formula (yName : String) (mapping : Option (List (String × String)))
    (xcols : List String) : String :=
  if mappingTruthy mapping then
    let m := mapping.getD []
    let cat_pass_keys := (m.filter fun p => p.2 == "cat_pass").map Prod.fst
    let other_keys := (m.filter fun p => p.2 != "cat_pass").map Prod.fst
    let non_categorical_part := joinPlus other_keys
    let categorical_part :=
      joinPlus (cat_pass_keys.map fun k => "C(" ++ k ++ ")")
    if non_categorical_part ≠ "" ∧ categorical_part ≠ "" then
      yName ++ " ~ " ++ non_categorical_part ++ " + " ++ categorical_part
    else if non_categorical_part ≠ "" then yName ++ " ~ " ++ non_categorical_part
    else if categorical_part ≠ "" then yName ++ " ~ " ++ categorical_part
    else yName ++ " ~ 1"
  else yName ++ " ~ " ++ joinPlus xcols

/-- The formula body the spec describes for a supplied mapping: the plain
features then the C()-wrapped categorical-passthrough features, one
`+`-joined sequence, with "1" when neither group is populated (modelled
from the spec's words, for comparison against `get_formula`). -/
def specFormulaBody (m : List (String × String)) : String :=
  let other_keys := (m.filter fun p => p.2 != "cat_pass").map Prod.fst
  let cat_parts := ((m.filter fun p => p.2 == "cat_pass").map Prod.fst).map
    fun k => "C(" ++ k ++ ")"
  if other_keys = [] ∧ cat_parts = [] then "1"
  else joinPlus (other_keys ++ cat_parts)

/-- statsmodels family objects, to the extent identity matters here. -/
inductive Family where
  | binomial
  | poisson
  | gaussian
deriving DecidableEq, Repr

/-- Models `GLM.fit_model`'s family selection: `family=None` defaults to
Binomial; the r_style branch passes `family` through to `smf.glm`, while
the plain branch passes a literal `sm.families.Binomial()` to `sm.GLM`,
ignoring the argument. -/
def fit_model_family (r_style : Bool) (family : Option Family) : Family :=
  let fam := match family with
    | none => Family.binomial
    | some f => f
  if r_style then fam else Family.binomial

/-!
Instance state machines (Unfit → Structured → Fitted) for claim C1.
-/

/-- The LeeCarter instance state: `lc_df` (set by structure_df and by fit)
and the fit-computed fields `a_x`/`k_t`/`b_x`/`b_x_k_t` (always assigned
together by fit, modelled as one optional record); `__init__` sets all of
them to None. -/
structure LCState where
  lc_df : Option Frame
  fitted : Option LCFit

/-- Models `LeeCarter.__init__`. -/
def LCState.init : LCState := ⟨none, none⟩

/-- The CBD instance state, shaped like `LCState`. -/
structure CBDState where
  cbd_df : Option Frame
  fitted : Option CBDFit

/-- Models `CBD.__init__`. -/
def CBDState.init : CBDState := ⟨none, none⟩

/-- The structured surface as a frame, under the default column names. -/
def surfFrame (rows : List SurfRow) : Frame where
  cols := ["attained_age", "observation_year", "death_claim_amount",
    "amount_exposed", "qx_raw"]
  rows := rows.map fun r =>
    [("attained_age", .int r.age), ("observation_year", .int r.year),
     ("death_claim_amount", .flt (.fin r.actual)),
     ("amount_exposed", .flt (.fin r.exposure)),
     ("qx_raw", .flt r.qx_raw)]

/-- Models `LeeCarter.structure_df` at the state level: sets `self.lc_df` only;
the fit fields stay None. -/
def lcStructureSt (st : LCState) (df : List ExpRow) : LCState :=
  { st with lc_df := some (surfFrame (structure_df df)) }

/-- Models `CBD.structure_df` at the state level. -/
def cbdStructureSt (st : CBDState) (df : List ExpRow) : CBDState :=
  { st with cbd_df := some (surfFrame (structure_df df)) }

/-- Models `LeeCarter.forecast`'s state handling: the not-fitted guard tests
`self.lc_df is None`; past it, the body immediately reads
`self.k_t.index[-1]` — a Python AttributeError when `k_t` is still None,
i.e. after structure_df without fit. -/
def lcForecastSt (exp : ℚ → ℚ) (st : LCState) (years : ℕ) :
    Except Err ForecastFrame :=
  match st.lc_df with
  | none => .error .modelNotFitted
  | some _ =>
    match st.fitted with
    | none => .error .noneTypeAttribute
    | some f => .ok (lcForecast exp f years)

/-- Models `CBD.forecast`'s state handling: the guard tests `self.cbd_df`; the
body then reads `self.k_t_1.index[-1]` (AttributeError when None). -/
def cbdForecastSt (exp : ℚ → ℚ) (st : CBDState) (years : ℕ) :
    Except Err ForecastFrame :=
  match st.cbd_df with
  | none => .error .modelNotFitted
  | some _ =>
    match st.fitted with
    | none => .error .noneTypeAttribute
    | some g => .ok (cbdForecast exp g years)

/-- Models `LeeCarter.map` at the state level: `modelMap` on the stored lc_df. -/
def lcMapSt (st : LCState) (df : Frame) : Except Err Frame :=
  modelMap "qx_lc" st.lc_df df "attained_age" "observation_year"

/-- Models `CBD.map` at the state level. -/
def cbdMapSt (st : CBDState) (df : Frame) : Except Err Frame :=
  modelMap "qx_cbd" st.cbd_df df "attained_age" "observation_year"

/-- Models `GLM.get_odds`: the guard `if self.model is None: raise ValueError`
then `np.exp(model.params)`. -/
def get_odds (exp : ℚ → ℚ) (model : Option (List ℚ)) : Except Err (List ℚ) :=
  match model with
  | none => .error .modelNotFitted
  | some params => .ok (params.map exp)

theorem joinPlus_append (l1 : List String) : ∀ l2 : List String,
    l1 ≠ [] → l2 ≠ [] →
    joinPlus (l1 ++ l2) = joinPlus l1 ++ " + " ++ joinPlus l2 := by
  induction l1 with
  | nil =>
    intro l2 h1 _
    exact absurd rfl h1
  | cons x xs ih =>
    intro l2 h1 h2
    cases xs with
    | nil =>
      cases l2 with
      | nil => exact absurd rfl h2
      | cons y ys => rfl
    | cons x2 xs2 =>
      have hih := ih l2 (List.cons_ne_nil x2 xs2) h2
      calc joinPlus ((x :: x2 :: xs2) ++ l2)
          = x ++ " + " ++ joinPlus ((x2 :: xs2) ++ l2) := rfl
        _ = x ++ " + " ++ (joinPlus (x2 :: xs2) ++ " + " ++ joinPlus l2) := by
              rw [hih]
        _ = joinPlus (x :: x2 :: xs2) ++ " + " ++ joinPlus l2 := by
              show x ++ " + " ++ (joinPlus (x2 :: xs2) ++ " + " ++ joinPlus l2)
                = (x ++ " + " ++ joinPlus (x2 :: xs2)) ++ " + " ++ joinPlus l2
              simp [String.append_assoc]

theorem mapping_groups_cover (m : List (String × String)) (hm : m ≠ [])
    (ho : (m.filter fun p => p.2 != "cat_pass") = [])
    (hc : (m.filter fun p => p.2 == "cat_pass") = []) : False := by
  cases m with
  | nil => exact hm rfl
  | cons p rest =>
    rw [List.filter_cons] at ho hc
    by_cases hp : (p.2 == "cat_pass") = true
    · rw [if_pos hp] at hc
      exact List.cons_ne_nil _ _ hc
    · rw [Bool.not_eq_true] at hp
      have hb : (p.2 != "cat_pass") = true := by
        simp [bne, hp]
      rw [if_pos hb] at ho
      exact List.cons_ne_nil _ _ ho

/-- Claim C8 is false in both directions.  An empty supplied mapping
populates neither group, yet — being falsy under `if self.mapping:` — it
yields the feature-matrix formula, not `y ~ 1`.  And a mapping whose
single feature is named by the empty string populates the non-categorical
group, yet the code's truthiness test of the joined string (empty here)
sends it to the `y ~ 1` fallback. -/
theorem c8_formula_fallback_counterexample :
    get_formula "y" (some []) (glmInitXCols ["feature1"])
      = "y ~ const + feature1" ∧
    get_formula "y" (some []) (glmInitXCols ["feature1"]) ≠ "y ~ 1" ∧
    ((([("", "num")] : List (String × String)).filter
        fun p => p.2 != "cat_pass").map Prod.fst) ≠ [] ∧
    get_formula "y" (some [("", "num")]) (glmInitXCols ["feature1"])
      = "y ~ 1" := by
  decide

theorem joinPlus_ne_empty (l : List String) (hl : l ≠ [])
    (hx : ∀ x ∈ l, x ≠ "") : joinPlus l ≠ "" := by
  cases l with
  | nil => exact absurd rfl hl
  | cons x xs =>
    cases xs with
    | nil => exact hx x (List.mem_cons_self x [])
    | cons y ys =>
      intro hcontra
      have hcontra' : x ++ " + " ++ joinPlus (y :: ys) = "" := hcontra
      have hlen := congrArg String.length hcontra'
      rw [String.length_append, String.length_append] at hlen
      have h3 : (" + " : String).length = 3 := rfl
      have h0 : ("" : String).length = 0 := rfl
      rw [h3, h0] at hlen
      omega

/-- The spec's end-to-end mapping: two numeric features and one
categorical-passthrough feature. -/
def c8mapping : List (String × String) :=
  [("feature1", "num"), ("feature2", "num"), ("feature3", "cat_pass")]

/-- Claim C8 (amended): the code branches on the truthiness of the joined
formula strings.  With a nonempty supplied mapping whose feature names are
nonempty, get_formula is `y ~ <plain features> + <C(categorical
features)>` exactly as the spec words it (`specFormulaBody`); an absent —
or empty, hence falsy — mapping takes the feature-matrix branch
`y ~ <columns of X>`; the `target ~ 1` fallback fires exactly when both
joined parts are empty strings, which a mapping populated only by an
empty-string feature name reaches even though it populates a group; and
the spec's example yields `y ~ feature1 + feature2 + C(feature3)`. -/
theorem c8_get_formula_spec (y : String) (m : List (String × String))
    (xcols : List String) (hm : m ≠ []) (hnames : ∀ p ∈ m, p.1 ≠ "") :
    get_formula y (some m) xcols = y ++ " ~ " ++ specFormulaBody m ∧
    get_formula y none xcols = y ++ " ~ " ++ joinPlus xcols ∧
    get_formula y (some []) xcols = y ++ " ~ " ++ joinPlus xcols ∧
    get_formula y (some [("", "num")]) xcols = y ++ " ~ 1" ∧
    get_formula "y" (some c8mapping)
        (glmInitXCols ["feature1", "feature2", "feature3"])
      = "y ~ feature1 + feature2 + C(feature3)" := by
  have ht : mappingTruthy (some m) = true := by
    cases m with
    | nil => exact absurd rfl hm
    | cons p rest => rfl
  have hother_mem : ∀ x ∈ (m.filter fun p => p.2 != "cat_pass").map Prod.fst,
      x ≠ "" := by
    intro x hxm
    rw [List.mem_map] at hxm
    obtain ⟨p, hp, rfl⟩ := hxm
    exact hnames p (List.mem_of_mem_filter hp)
  have hcat_mem : ∀ x ∈ ((m.filter fun p =>
      p.2 == "cat_pass").map Prod.fst).map (fun k => "C(" ++ k ++ ")"),
      x ≠ "" := by
    intro x hxm
    rw [List.mem_map] at hxm
    obtain ⟨k, _, rfl⟩ := hxm
    intro hcontra
    have hlen := congrArg String.length hcontra
    rw [String.length_append, String.length_append] at hlen
    have h2 : ("C(" : String).length = 2 := rfl
    have h1 : (")" : String).length = 1 := rfl
    have h0 : ("" : String).length = 0 := rfl
    rw [h2, h1, h0] at hlen
    omega
  have hfall : get_formula y (some [("", "num")]) xcols = y ++ " ~ 1" := by
    simp [get_formula, mappingTruthy, joinPlus]
  refine ⟨?_, rfl, rfl, hfall, by decide⟩
  by_cases ho : ((m.filter fun p => p.2 != "cat_pass").map Prod.fst) = [] <;>
    by_cases hc : ((m.filter fun p => p.2 == "cat_pass").map Prod.fst) = []
  · exact absurd (mapping_groups_cover m hm
      (List.map_eq_nil_iff.mp ho) (List.map_eq_nil_iff.mp hc)) not_false
  · have hcw : (((m.filter fun p => p.2 == "cat_pass").map Prod.fst).map
        fun k => "C(" ++ k ++ ")") ≠ [] := by
      intro hnil
      exact hc (List.map_eq_nil_iff.mp hnil)
    have hosE : joinPlus ((m.filter fun p =>
        p.2 != "cat_pass").map Prod.fst) = "" := by
      rw [ho]; rfl
    have hcatS : joinPlus (((m.filter fun p =>
        p.2 == "cat_pass").map Prod.fst).map fun k => "C(" ++ k ++ ")")
        ≠ "" := joinPlus_ne_empty _ hcw hcat_mem
    have hgf : get_formula y (some m) xcols
        = y ++ " ~ " ++ joinPlus (((m.filter fun p =>
            p.2 == "cat_pass").map Prod.fst).map fun k => "C(" ++ k ++ ")") := by
      simp only [get_formula, ht, if_true, Option.getD_some]
      rw [if_neg (by rintro ⟨h1, _⟩; exact h1 hosE),
        if_neg (by intro h1; exact h1 hosE), if_pos hcatS]
    have hsb : specFormulaBody m
        = joinPlus (((m.filter fun p =>
            p.2 == "cat_pass").map Prod.fst).map fun k => "C(" ++ k ++ ")") := by
      rw [specFormulaBody, if_neg (by rintro ⟨_, h2⟩; exact hcw h2), ho,
        List.nil_append]
    rw [hgf, hsb]
  · have hcw : (((m.filter fun p => p.2 == "cat_pass").map Prod.fst).map
        fun k => "C(" ++ k ++ ")") = [] := by
      rw [List.map_eq_nil_iff]
      exact hc
    have hcatE : joinPlus (((m.filter fun p =>
        p.2 == "cat_pass").map Prod.fst).map fun k => "C(" ++ k ++ ")")
        = "" := by
      rw [hcw]; rfl
    have hotherS : joinPlus ((m.filter fun p =>
        p.2 != "cat_pass").map Prod.fst) ≠ "" :=
      joinPlus_ne_empty _ ho hother_mem
    have hgf : get_formula y (some m) xcols
        = y ++ " ~ " ++ joinPlus ((m.filter fun p =>
            p.2 != "cat_pass").map Prod.fst) := by
      simp only [get_formula, ht, if_true, Option.getD_some]
      rw [if_neg (by rintro ⟨_, h2⟩; exact h2 hcatE), if_pos hotherS]
    have hsb : specFormulaBody m
        = joinPlus ((m.filter fun p => p.2 != "cat_pass").map Prod.fst) := by
      rw [specFormulaBody, if_neg (by rintro ⟨h1, _⟩; exact ho h1), hcw,
        List.append_nil]
    rw [hgf, hsb]
  · have hcw : (((m.filter fun p => p.2 == "cat_pass").map Prod.fst).map
        fun k => "C(" ++ k ++ ")") ≠ [] := by
      intro hnil
      exact hc (List.map_eq_nil_iff.mp hnil)
    have hotherS : joinPlus ((m.filter fun p =>
        p.2 != "cat_pass").map Prod.fst) ≠ "" :=
      joinPlus_ne_empty _ ho hother_mem
    have hcatS : joinPlus (((m.filter fun p =>
        p.2 == "cat_pass").map Prod.fst).map fun k => "C(" ++ k ++ ")")
        ≠ "" := joinPlus_ne_empty _ hcw hcat_mem
    have hgf : get_formula y (some m) xcols
        = y ++ " ~ " ++ joinPlus ((m.filter fun p =>
            p.2 != "cat_pass").map Prod.fst)
          ++ " + " ++ joinPlus (((m.filter fun p =>
            p.2 == "cat_pass").map Prod.fst).map fun k => "C(" ++ k ++ ")") := by
      simp only [get_formula, ht, if_true, Option.getD_some]
      rw [if_pos ⟨hotherS, hcatS⟩]
    have hsb : specFormulaBody m
        = joinPlus ((m.filter fun p => p.2 != "cat_pass").map Prod.fst)
          ++ " + " ++ joinPlus (((m.filter fun p =>
            p.2 == "cat_pass").map Prod.fst).map fun k => "C(" ++ k ++ ")") := by
      rw [specFormulaBody, if_neg (by rintro ⟨h1, _⟩; exact ho h1),
        joinPlus_append _ _ ho hcw]
    rw [hgf, hsb]
    simp [String.append_assoc]

/-- Witness for the amended claim C8 at the spec's example mapping. -/
theorem c8_get_formula_spec_witness :
    get_formula "y" (some c8mapping)
        (glmInitXCols ["feature1", "feature2", "feature3"])
      = "y" ++ " ~ " ++ specFormulaBody c8mapping ∧
    get_formula "y" none (glmInitXCols ["feature1", "feature2", "feature3"])
      = "y" ++ " ~ " ++ joinPlus (glmInitXCols ["feature1", "feature2", "feature3"]) ∧
    get_formula "y" (some []) (glmInitXCols ["feature1", "feature2", "feature3"])
      = "y" ++ " ~ " ++ joinPlus (glmInitXCols ["feature1", "feature2", "feature3"]) ∧
    get_formula "y" (some [("", "num")])
        (glmInitXCols ["feature1", "feature2", "feature3"]) = "y" ++ " ~ 1" ∧
    get_formula "y" (some c8mapping)
        (glmInitXCols ["feature1", "feature2", "feature3"])
      = "y ~ feature1 + feature2 + C(feature3)" :=
  c8_get_formula_spec "y" c8mapping
    (glmInitXCols ["feature1", "feature2", "feature3"]) (by decide) (by decide)

/-- Claim C9 evaluated on the code: both paths fit Binomial when no family
is supplied, and the r_style path honours a supplied family; but the plain
path (r_style=False) hardcodes `sm.families.Binomial()` and ignores the
supplied family — here evaluated at family=Poisson. -/
theorem c9_fit_model_family_hardcoded :
    fit_model_family true none = Family.binomial ∧
    fit_model_family false none = Family.binomial ∧
    fit_model_family true (some Family.poisson) = Family.poisson ∧
    fit_model_family false (some Family.poisson) = Family.binomial ∧
    Family.poisson ≠ Family.binomial := by
  decide

/-- The experience dataset driving the claim C1 state machine. -/
def c1df : List ExpRow := [⟨50, 2000, 0, 100⟩]

/-- The caller dataset handed to map in the claim C1 scenario. -/
def c1caller : Frame where
  cols := ["attained_age", "observation_year"]
  rows := [[("attained_age", .int 50), ("observation_year", .int 2000)]]

/-- Claim C1 evaluated on the code: from the freshly constructed (Unfit)
state, forecast/map/get_odds do raise the not-fitted error; but from the
Structured state (structure_df done, fit not yet run) LeeCarter's and
CBD's forecast passes the `lc_df is None` guard — which structure_df has
satisfied — and crashes on the AttributeError of the still-None
k_t/k_t_1, and map fails with a pandas KeyError on the not-yet-existing
qx_lc/qx_cbd column; neither raises ModelNotFittedError. -/
theorem c1_structured_state_escapes_guard :
    (lcForecastSt id LCState.init 1 = .error .modelNotFitted) ∧
    (lcMapSt LCState.init c1caller = .error .modelNotFitted) ∧
    (cbdForecastSt id CBDState.init 1 = .error .modelNotFitted) ∧
    (cbdMapSt CBDState.init c1caller = .error .modelNotFitted) ∧
    (get_odds id none = .error .modelNotFitted) ∧
    (lcForecastSt id (lcStructureSt LCState.init c1df) 1
      = .error .noneTypeAttribute) ∧
    (lcMapSt (lcStructureSt LCState.init c1df) c1caller
      = .error (.keyError "qx_lc")) ∧
    (cbdForecastSt id (cbdStructureSt CBDState.init c1df) 1
      = .error .noneTypeAttribute) ∧
    (cbdMapSt (cbdStructureSt CBDState.init c1df) c1caller
      = .error (.keyError "qx_cbd")) ∧
    (Err.noneTypeAttribute ≠ Err.modelNotFitted) ∧
    (Err.keyError "qx_lc" ≠ Err.modelNotFitted) := by
  decide

end Morai
